import Mathlib

/-!
# EcoCatalyst offline durability layer — verification development

Shallow embedding of the offline-first synchronization subsystem of the
EcoCatalyst mobile application, translated from
`src/services/networkManager.ts` and `src/services/errorHandling.ts`.

Modelling conventions:
* Timestamps (`Date.now()`) are natural numbers (ms since epoch).  JS
  subtraction `now - t` is only ever compared against a non-negative bound;
  truncated `Nat` subtraction agrees with JS semantics on those comparisons
  (a negative JS difference and a truncated-to-zero `Nat` difference fall on
  the same side of `> MAX` and `≤ MAX`).
* A pending request's `execute` closure (`() => Promise<any>`) is modelled as
  a function `Nat → Bool` from the time of invocation to whether the promise
  resolves (`true`) or rejects (`false`).  The always-failing operation is
  `fun _ => false`; the placeholder restored by `loadPendingRequests`
  (`async () => {}`) is `fun _ => true`.
* `AsyncStorage` is made explicit state: the value stored under the
  pending-requests key is the list of serialized records (JSON round-trips
  the four scalar fields verbatim, so the JSON string layer is elided).
* Event emission is recorded as an append-only trace of emitted events;
  listener callbacks themselves are not modelled (no claim refers to them).
* The single-threaded event-loop model of the source means each `await`
  chain runs to completion; methods become pure state transformers.
-/

/-- `NetworkEvent` enum from networkManager.ts, with the payload each emit
site actually passes (`this.networkStatus` for connectivity edges, the queue
length for `PENDING_REQUESTS_CHANGED`). -/
inductive EmittedEvent where
  | connected (isConnected : Bool) (isInternetReachable : Option Bool)
  | disconnected (isConnected : Bool) (isInternetReachable : Option Bool)
  | pendingRequestsChanged (count : Nat)
deriving DecidableEq, Repr

/-- `NetworkStatus` from networkManager.ts.  `isInternetReachable` is the
tri-state `boolean | null`; `details : any` is an opaque informational
payload, modelled as an optional string. -/
structure NetworkStatus where
  isConnected : Bool
  isInternetReachable : Option Bool
  type : String
  details : Option String
deriving DecidableEq, Repr

/-- `NetInfoState` as consumed by `handleNetworkChange`: the platform
callback payload.  `state.isConnected` is `boolean | null` (the source
applies `?? false`). -/
structure NetInfoState where
  isConnected : Option Bool
  isInternetReachable : Option Bool
  type : String
  details : Option String
deriving DecidableEq, Repr

/-- `PendingRequest` from networkManager.ts.  `execute` maps the invocation
time to resolve/reject. -/
structure PendingRequest where
  id : String
  execute : Nat → Bool
  timestamp : Nat
  retryCount : Nat
  maxRetries : Nat

/-- The serializable projection written to storage by `savePendingRequests`:
only `id`, `timestamp`, `retryCount`, `maxRetries`. -/
structure StoredRequest where
  id : String
  timestamp : Nat
  retryCount : Nat
  maxRetries : Nat
deriving DecidableEq, Repr

/-- `NetworkManager` instance state.  `subscribed` models
`this.unsubscribe !== null`; `storage` is the AsyncStorage slot under
`PENDING_REQUESTS_KEY`; `events` is the trace of `emit` calls. -/
structure ManagerState where
  pendingRequests : List PendingRequest
  networkStatus : NetworkStatus
  isProcessingQueue : Bool
  isInitialized : Bool
  subscribed : Bool
  storage : Option (List StoredRequest)
  events : List EmittedEvent

/-- `MAX_REQUEST_AGE = 24 * 60 * 60 * 1000` (24 hours in ms). -/
def MAX_REQUEST_AGE : Nat := 24 * 60 * 60 * 1000

/-- Field initializer of `networkStatus`: the manager starts out assuming a
connected, reachable network. -/
def initialNetworkStatus : NetworkStatus :=
  { isConnected := true
    isInternetReachable := some true
    type := "unknown"
    details := none }

/-- A fresh `NetworkManager` (constructor state) over a given persisted
storage content. -/
def initialManagerState (storage : Option (List StoredRequest)) : ManagerState :=
  { pendingRequests := []
    networkStatus := initialNetworkStatus
    isProcessingQueue := false
    isInitialized := false
    subscribed := false
    storage := storage
    events := [] }

/-- `emit`: appends the event to the trace (listener dispatch itself is not
modelled). -/
def emitEvent (e : EmittedEvent) (s : ManagerState) : ManagerState :=
  { s with events := s.events ++ [e] }

/-- `isConnected()`: `this.networkStatus.isConnected &&
this.networkStatus.isInternetReachable !== false`.  In the tri-state model
`!== false` holds for `some true` and `none` (null). -/
def statusIsConnected (st : NetworkStatus) : Bool :=
  st.isConnected && st.isInternetReachable != some false

/-- `isConnected()` on the manager state. -/
def managerIsConnected (s : ManagerState) : Bool :=
  statusIsConnected s.networkStatus

/-- `savePendingRequests`: the per-request serializable projection
`({ id, timestamp, retryCount, maxRetries }) => ({...})`. -/
def serializeRequest (r : PendingRequest) : StoredRequest :=
  { id := r.id
    timestamp := r.timestamp
    retryCount := r.retryCount
    maxRetries := r.maxRetries }

/-- `savePendingRequests`: writes the serializable projection of the live
queue to storage. -/
def savePendingRequests (s : ManagerState) : ManagerState :=
  { s with storage := some (s.pendingRequests.map serializeRequest) }

/-- The placeholder `execute: async () => {}` substituted on load — it
resolves (does nothing). -/
def placeholderExecute : Nat → Bool := fun _ => true

/-- Restoring one stored record: spread the metadata, substitute the
placeholder for `execute` ("these can't be restored"). -/
def restoreRequest (r : StoredRequest) : PendingRequest :=
  { id := r.id
    execute := placeholderExecute
    timestamp := r.timestamp
    retryCount := r.retryCount
    maxRetries := r.maxRetries }

/-- `loadPendingRequests`: if the storage slot holds data, keep only entries
with `Date.now() - timestamp <= MAX_REQUEST_AGE`, restore them with the
placeholder `execute`, and emit `PENDING_REQUESTS_CHANGED`. -/
def loadPendingRequests (now : Nat) (s : ManagerState) : ManagerState :=
  match s.storage with
  | none => s
  | some data =>
      let kept := data.filter (fun r => now - r.timestamp ≤ MAX_REQUEST_AGE)
      { s with
          pendingRequests := kept.map restoreRequest
          events := s.events ++ [.pendingRequestsChanged kept.length] }

/-- `this.pendingRequests.filter(r => r.id !== request.id)`. -/
def removeById (i : String) (l : List PendingRequest) : List PendingRequest :=
  l.filter (fun r => r.id ≠ i)

/-- `findIndex` + `retryCount++` on the live queue: increment the first
entry whose id matches (JS mutates the object found by `findIndex`). -/
def bumpFirst (i : String) : List PendingRequest → List PendingRequest
  | [] => []
  | r :: rs =>
      if r.id = i then { r with retryCount := r.retryCount + 1 } :: rs
      else r :: bumpFirst i rs

/-- `findIndex`-style lookup of the first live entry with the given id. -/
def findFirst (i : String) : List PendingRequest → Option PendingRequest
  | [] => none
  | r :: rs => if r.id = i then some r else findFirst i rs

/-- One iteration of the drain loop body of `processPendingRequests`, acting
on the live queue for one snapshot element `request`:
stale ⇒ remove without executing; `execute()` resolves ⇒ remove; rejects ⇒
increment `retryCount` of the first live entry with that id and remove when
the incremented count exceeds `request.maxRetries`. -/
def drainStep (now : Nat) (live : List PendingRequest) (request : PendingRequest) :
    List PendingRequest :=
  if now - request.timestamp > MAX_REQUEST_AGE then removeById request.id live
  else if request.execute now then removeById request.id live
  else
    match findFirst request.id live with
    | none => live
    | some r =>
        let live' := bumpFirst request.id live
        if r.retryCount + 1 > request.maxRetries then removeById request.id live'
        else live'

/-- The `for` loop of `processPendingRequests`: fold the snapshot over the
live queue. -/
def drainList (now : Nat) : List PendingRequest → List PendingRequest → List PendingRequest
  | live, [] => live
  | live, request :: rest => drainList now (drainStep now live request) rest

/-- `processPendingRequests`: guard (already draining / offline / empty
queue), snapshot, per-item loop, then save and emit
`PENDING_REQUESTS_CHANGED`.  The `isProcessingQueue` flag is set on entry
and cleared in `finally`; in the single-threaded model its net effect is
identity. -/
def processPendingRequests (now : Nat) (s : ManagerState) : ManagerState :=
  if s.isProcessingQueue || !managerIsConnected s || s.pendingRequests.isEmpty then s
  else
    let snapshot := s.pendingRequests
    let live := drainList now s.pendingRequests snapshot
    let s' := savePendingRequests { s with pendingRequests := live }
    emitEvent (.pendingRequestsChanged live.length) s'

/-- `enqueueRequest(id, execute, maxRetries)`: push a fresh request
(`retryCount = 0`, `timestamp = Date.now()`), persist, emit
`PENDING_REQUESTS_CHANGED` with the new length, and drain when connected. -/
def enqueueRequest (now : Nat) (i : String) (execute : Nat → Bool)
    (maxRetries : Nat) (s : ManagerState) : ManagerState :=
  let request : PendingRequest :=
    { id := i, execute := execute, timestamp := now, retryCount := 0
      maxRetries := maxRetries }
  let s1 := savePendingRequests { s with pendingRequests := s.pendingRequests ++ [request] }
  let s2 := emitEvent (.pendingRequestsChanged s1.pendingRequests.length) s1
  if managerIsConnected s2 then processPendingRequests now s2 else s2

/-- `handleNetworkChange`: record the new status; on an `isConnected` edge
emit `CONNECTED` (and drain) or `DISCONNECTED`; otherwise do nothing
further. -/
def handleNetworkChange (now : Nat) (state : NetInfoState) (s : ManagerState) :
    ManagerState :=
  let previousStatus := s.networkStatus
  let newStatus : NetworkStatus :=
    { isConnected := state.isConnected.getD false
      isInternetReachable := state.isInternetReachable
      type := state.type
      details := state.details }
  let s1 := { s with networkStatus := newStatus }
  if previousStatus.isConnected ≠ newStatus.isConnected then
    if newStatus.isConnected then
      processPendingRequests now
        (emitEvent (.connected newStatus.isConnected newStatus.isInternetReachable) s1)
    else
      emitEvent (.disconnected newStatus.isConnected newStatus.isInternetReachable) s1
  else s1

/-- `initialize()`: no-op when already initialized; otherwise load the
persisted queue, subscribe to platform notifications, fetch the current
platform state once and feed it through `handleNetworkChange`, then mark
initialized.  (`fetchState` is the result of the one-shot `NetInfo.fetch()`;
exceptions of the error path are not reachable in the pure model.) -/
def initializeManager (now : Nat) (fetchState : NetInfoState) (s : ManagerState) : ManagerState :=
  if s.isInitialized then s
  else
    let s1 := loadPendingRequests now s
    let s2 := { s1 with subscribed := true }
    let s3 := handleNetworkChange now fetchState s2
    { s3 with isInitialized := true }

/-! ## Error/telemetry sink — errorHandling.ts -/

/-- `ErrorType` enum from errorHandling.ts. -/
inductive ErrorType where
  | NETWORK | AUTHENTICATION | PERMISSION | VALIDATION | SERVER | UNKNOWN
deriving DecidableEq, Repr

/-- `ErrorSeverity` enum from errorHandling.ts. -/
inductive ErrorSeverity where
  | LOW | MEDIUM | HIGH | FATAL
deriving DecidableEq, Repr

/-- The `error: Error | string` argument of `handleError`: either a plain
string or an exception object carrying a message and an optional stack. -/
inductive ErrorInput where
  | str (s : String)
  | err (message : String) (stack : Option String)
deriving DecidableEq, Repr

/-- `AppError` from errorHandling.ts.  The free-form `context` record is
modelled as an opaque optional payload; `code` is never set by
`handleError` and stays `none`. -/
structure AppError where
  type : ErrorType
  severity : ErrorSeverity
  message : String
  code : Option String
  timestamp : Nat
  context : Option String
  stack : Option String
deriving DecidableEq, Repr

/-- `MAX_STORED_ERRORS = 100`. -/
def MAX_STORED_ERRORS : Nat := 100

/-- `ErrorHandlingService` instance state.  `storedErrors` is the
AsyncStorage slot under `ERROR_LOGS_STORAGE_KEY`; `alerts` and
`criticalReports` are traces of `showErrorAlert` / `reportCriticalError`
calls. -/
structure ErrorServiceState where
  errors : List AppError
  storedErrors : Option (List AppError)
  isInitialized : Bool
  alerts : List AppError
  criticalReports : List AppError
deriving DecidableEq, Repr

/-- A fresh `ErrorHandlingService` over empty storage. -/
def initialErrorServiceState : ErrorServiceState :=
  { errors := []
    storedErrors := none
    isInitialized := false
    alerts := []
    criticalReports := [] }

/-- The service's `initialize()`: no-op when initialized; otherwise load the
stored error log (if any) and mark initialized. -/
def errorServiceInit (s : ErrorServiceState) : ErrorServiceState :=
  if s.isInitialized then s
  else
    match s.storedErrors with
    | some es => { s with errors := es, isInitialized := true }
    | none => { s with isInitialized := true }

/-- Construction of the `AppError` record inside `handleError`:
message/stack come from the string-vs-exception case split. -/
def mkAppError (input : ErrorInput) (type : ErrorType) (severity : ErrorSeverity)
    (context : Option String) (now : Nat) : AppError :=
  { type := type
    severity := severity
    message := match input with | .str s => s | .err m _ => m
    code := none
    timestamp := now
    context := context
    stack := match input with | .str _ => none | .err _ st => st }

/-- `handleError`: ensure initialized, build the `AppError`, prepend it
(`unshift`), truncate to `MAX_STORED_ERRORS` when over the cap, persist,
optionally record an alert, and forward HIGH/FATAL errors to the critical
reporting hook.  Returns the new state and the handled error. -/
def handleError (input : ErrorInput) (type : ErrorType) (severity : ErrorSeverity)
    (context : Option String) (showAlert : Bool) (now : Nat)
    (s : ErrorServiceState) : ErrorServiceState × AppError :=
  let s0 := errorServiceInit s
  let appError := mkAppError input type severity context now
  let errs := appError :: s0.errors
  let errs := if errs.length > MAX_STORED_ERRORS then errs.take MAX_STORED_ERRORS else errs
  let s1 := { s0 with errors := errs, storedErrors := some errs }
  let s2 := if showAlert then { s1 with alerts := s1.alerts ++ [appError] } else s1
  let s3 :=
    if severity = .HIGH ∨ severity = .FATAL then
      { s2 with criticalReports := s2.criticalReports ++ [appError] }
    else s2
  (s3, appError)

/-- One recorded call to `handleError` (argument bundle). -/
structure ErrorCall where
  input : ErrorInput
  type : ErrorType
  severity : ErrorSeverity
  context : Option String
  showAlert : Bool
  now : Nat
deriving DecidableEq, Repr

/-- A sequence of `handleError` calls, applied in order. -/
def runHandleErrors : List ErrorCall → ErrorServiceState → ErrorServiceState
  | [], s => s
  | c :: cs, s =>
      runHandleErrors cs (handleError c.input c.type c.severity c.context c.showAlert c.now s).1

/-- `withErrorHandling`: the higher-order wrapper.  The wrapped async
function is modelled as `α → Except ErrorInput β` (resolve with a value or
throw).  On resolve, return the value untouched; on throw, route the thrown
error through `handleError` with the supplied classification, then
re-raise the same error. -/
def withErrorHandling {α β : Type} (fn : α → Except ErrorInput β)
    (errorType : ErrorType) (severity : ErrorSeverity) (context : Option String)
    (showAlert : Bool) (now : Nat) (a : α) (s : ErrorServiceState) :
    ErrorServiceState × Except ErrorInput β :=
  match fn a with
  | .ok b => (s, .ok b)
  | .error e => ((handleError e errorType severity context showAlert now s).1, .error e)

/-! ## Auxiliary definitions for the statements -/

/-- An operation whose `execute` always rejects. -/
def alwaysFails : Nat → Bool := fun _ => false

/-- A manager state that is initialized, subscribed, idle and connected,
holding a given queue — the configuration in which a drain pass actually
runs. -/
def readyState (q : List PendingRequest) : ManagerState :=
  { pendingRequests := q
    networkStatus := initialNetworkStatus
    isProcessingQueue := false
    isInitialized := true
    subscribed := true
    storage := none
    events := [] }

/-- A manager state whose network status is disconnected. -/
def offlineState (q : List PendingRequest) : ManagerState :=
  { pendingRequests := q
    networkStatus := { isConnected := false, isInternetReachable := some false
                       type := "none", details := none }
    isProcessingQueue := false
    isInitialized := true
    subscribed := true
    storage := none
    events := [] }

/-- Recognizer for `CONNECTED` events in the trace. -/
def isConnectedEvent : EmittedEvent → Bool
  | .connected _ _ => true
  | _ => false

/-- Recognizer for `DISCONNECTED` events in the trace. -/
def isDisconnectedEvent : EmittedEvent → Bool
  | .disconnected _ _ => true
  | _ => false

/-- Timestamps of a queue, in queue order. -/
def queueTimestamps (q : List PendingRequest) : List Nat :=
  q.map (fun r => r.timestamp)

/-! ## General lemmas about the model -/

theorem processPendingRequests_preserves (now : Nat) (s : ManagerState) :
    (processPendingRequests now s).networkStatus = s.networkStatus ∧
    (processPendingRequests now s).isProcessingQueue = s.isProcessingQueue ∧
    (processPendingRequests now s).isInitialized = s.isInitialized := by
  unfold processPendingRequests
  split
  · exact ⟨rfl, rfl, rfl⟩
  · exact ⟨rfl, rfl, rfl⟩

theorem processPendingRequests_events_shape (now : Nat) (s : ManagerState) :
    (processPendingRequests now s).events = s.events ∨
    ∃ n, (processPendingRequests now s).events =
      s.events ++ [EmittedEvent.pendingRequestsChanged n] := by
  unfold processPendingRequests
  split
  · exact Or.inl rfl
  · exact Or.inr ⟨_, rfl⟩

/-- C6: `isConnected()` returns true iff the stored `isConnected` flag is
true and `isInternetReachable` is not `false`; in particular it is false
whenever `isInternetReachable === false`, even with `isConnected === true`. -/
theorem isConnected_conservative (st : NetworkStatus) :
    (statusIsConnected st = true ↔
      (st.isConnected = true ∧ st.isInternetReachable ≠ some false)) ∧
    (∀ ty d, statusIsConnected ⟨true, some false, ty, d⟩ = false) := by
  constructor
  · simp [statusIsConnected, bne_iff_ne]
  · intro ty d
    simp [statusIsConnected]

/-- C4: persisting a pending operation serializes only its id, timestamp,
retryCount and maxRetries (the `execute` closure is dropped by the type of
`StoredRequest`), and after a process restart every operation restored by
`loadPendingRequests` carries the do-nothing placeholder instead of its
original action. -/
theorem persisted_queue_loses_actions (s : ManagerState) (now : Nat) :
    ((savePendingRequests s).storage =
      some (s.pendingRequests.map (fun r =>
        ⟨r.id, r.timestamp, r.retryCount, r.maxRetries⟩))) ∧
    (∀ r ∈ (loadPendingRequests now
        (initialManagerState (savePendingRequests s).storage)).pendingRequests,
      r.execute = placeholderExecute) := by
  constructor
  · rfl
  · intro r hr
    simp only [loadPendingRequests, initialManagerState, savePendingRequests,
      List.mem_map, List.mem_filter] at hr
    obtain ⟨a, _, rfl⟩ := hr
    rfl

/-- C8: `initialize()` is idempotent — once a call has completed, a second
call (with any platform fetch result and at any time) is a no-op and leaves
the fully initialized state unchanged. -/
theorem initializeManager_idempotent (now now' : Nat) (f f' : NetInfoState)
    (s : ManagerState) :
    initializeManager now' f' (initializeManager now f s) =
      initializeManager now f s := by
  by_cases h : s.isInitialized
  · simp [initializeManager, h]
  · simp [initializeManager, h]

theorem take_if_over {α : Type} (a : α) (l : List α) (n : Nat) :
    (if (a :: l).length > n then (a :: l).take n else a :: l) = (a :: l).take n := by
  split
  · rfl
  · exact (List.take_of_length_le (Nat.le_of_not_lt (by assumption))).symm

theorem handleError_fst_errors (input : ErrorInput) (ty : ErrorType)
    (sev : ErrorSeverity) (ctx : Option String) (alert : Bool) (now : Nat)
    (s : ErrorServiceState) :
    (handleError input ty sev ctx alert now s).1.errors =
      (mkAppError input ty sev ctx now :: (errorServiceInit s).errors).take
        MAX_STORED_ERRORS := by
  unfold handleError
  by_cases hs : sev = .HIGH ∨ sev = .FATAL <;> cases alert <;>
    simp only [hs, if_true, if_false, Bool.false_eq_true, Bool.true_eq_false] <;>
    exact take_if_over _ _ _

theorem handleError_errors_length_le (input : ErrorInput) (ty : ErrorType)
    (sev : ErrorSeverity) (ctx : Option String) (alert : Bool) (now : Nat)
    (s : ErrorServiceState) :
    (handleError input ty sev ctx alert now s).1.errors.length ≤ MAX_STORED_ERRORS := by
  rw [handleError_fst_errors]
  simp [List.length_take]

theorem runHandleErrors_length_le (calls : List ErrorCall) (s : ErrorServiceState)
    (h : s.errors.length ≤ MAX_STORED_ERRORS) :
    (runHandleErrors calls s).errors.length ≤ MAX_STORED_ERRORS := by
  induction calls generalizing s with
  | nil => exact h
  | cons c cs ih =>
      exact ih _ (handleError_errors_length_le c.input c.type c.severity c.context
        c.showAlert c.now s)

/-- C7: the retained error log never exceeds 100 entries for any sequence of
`handleError` calls, and eviction is oldest-first: each call makes the log
equal to the new error prepended to the previous log, truncated to the 100
most recent entries (the dropped suffix is the oldest entries). -/
theorem errorLog_bounded_oldest_evicted :
    (∀ calls : List ErrorCall,
      (runHandleErrors calls initialErrorServiceState).errors.length ≤
        MAX_STORED_ERRORS) ∧
    (∀ (input : ErrorInput) (ty : ErrorType) (sev : ErrorSeverity)
        (ctx : Option String) (alert : Bool) (now : Nat) (s : ErrorServiceState),
      (handleError input ty sev ctx alert now s).1.errors =
        (mkAppError input ty sev ctx now :: (errorServiceInit s).errors).take
          MAX_STORED_ERRORS) := by
  constructor
  · intro calls
    exact runHandleErrors_length_le calls initialErrorServiceState (by simp [initialErrorServiceState])
  · intro input ty sev ctx alert now s
    exact handleError_fst_errors input ty sev ctx alert now s

/-- C9: the higher-order error-handling wrapper is transparent on success
(same value, untouched state), and on failure it records the thrown error
through `handleError` with the supplied type and severity — the recorded
entry sits at the head of the log — and re-raises the very same error. -/
theorem withErrorHandling_records_and_rethrows {α β : Type}
    (fn : α → Except ErrorInput β) (ty : ErrorType) (sev : ErrorSeverity)
    (ctx : Option String) (alert : Bool) (now : Nat) (a : α)
    (s : ErrorServiceState) :
    ((withErrorHandling fn ty sev ctx alert now a s).2 = fn a) ∧
    ((withErrorHandling fn ty sev ctx alert now a s).1 =
      match fn a with
      | .ok _ => s
      | .error e => (handleError e ty sev ctx alert now s).1) ∧
    ((withErrorHandling fn ty sev ctx alert now a s).1.errors.head? =
      match fn a with
      | .ok _ => s.errors.head?
      | .error e => some (mkAppError e ty sev ctx now)) := by
  rcases h : fn a with e | b
  · refine ⟨?_, ?_, ?_⟩
    · simp [withErrorHandling, h]
    · simp [withErrorHandling, h]
    · simp only [withErrorHandling, h]
      rw [handleError_fst_errors]
      rfl
  · exact ⟨by simp [withErrorHandling, h], by simp [withErrorHandling, h],
      by simp [withErrorHandling, h]⟩

theorem singleton_fail_pass (i : String) (t0 c m now : Nat) (s : ManagerState)
    (hq : s.pendingRequests = [⟨i, alwaysFails, t0, c, m⟩])
    (hp : s.isProcessingQueue = false)
    (hc : managerIsConnected s = true)
    (hage : now - t0 ≤ MAX_REQUEST_AGE) :
    (processPendingRequests now s).pendingRequests =
      if c + 1 > m then [] else [⟨i, alwaysFails, t0, c + 1, m⟩] := by
  unfold processPendingRequests
  rw [hq, hp, hc]
  by_cases hcm : m < c + 1 <;>
    simp [drainList, drainStep, findFirst, bumpFirst, removeById, alwaysFails,
      Nat.not_lt.mpr hage, savePendingRequests, emitEvent, hcm]

/-- C1: with `maxRetries = 2`, an always-failing operation survives exactly
two failed passes (`retryCount` 0→1→2) and is discarded at the end of the
third (`retryCount` reaching 3 > 2); in general a failed attempt increments
`retryCount` and the operation is removed exactly when the incremented count
exceeds `maxRetries` (the snapshot loop attempts each queue entry once per
pass). -/
theorem alwaysFailing_op_three_passes (i : String) (t0 t1 t2 t3 : Nat)
    (h1 : t1 - t0 ≤ MAX_REQUEST_AGE) (h2 : t2 - t0 ≤ MAX_REQUEST_AGE)
    (h3 : t3 - t0 ≤ MAX_REQUEST_AGE) :
    (processPendingRequests t1
        (readyState [⟨i, alwaysFails, t0, 0, 2⟩])).pendingRequests =
      [⟨i, alwaysFails, t0, 1, 2⟩] ∧
    (processPendingRequests t2 (processPendingRequests t1
        (readyState [⟨i, alwaysFails, t0, 0, 2⟩]))).pendingRequests =
      [⟨i, alwaysFails, t0, 2, 2⟩] ∧
    (processPendingRequests t3 (processPendingRequests t2 (processPendingRequests t1
        (readyState [⟨i, alwaysFails, t0, 0, 2⟩])))).pendingRequests = [] ∧
    (∀ (c m now : Nat) (s : ManagerState),
      s.pendingRequests = [⟨i, alwaysFails, t0, c, m⟩] →
      s.isProcessingQueue = false → managerIsConnected s = true →
      now - t0 ≤ MAX_REQUEST_AGE →
      (processPendingRequests now s).pendingRequests =
        if c + 1 > m then [] else [⟨i, alwaysFails, t0, c + 1, m⟩]) := by
  have hq1 : (processPendingRequests t1
      (readyState [⟨i, alwaysFails, t0, 0, 2⟩])).pendingRequests =
      [⟨i, alwaysFails, t0, 1, 2⟩] := by
    have h := singleton_fail_pass i t0 0 2 t1
      (readyState [⟨i, alwaysFails, t0, 0, 2⟩]) rfl rfl rfl h1
    simpa using h
  have hp1 : (processPendingRequests t1
      (readyState [⟨i, alwaysFails, t0, 0, 2⟩])).isProcessingQueue = false :=
    (processPendingRequests_preserves t1 _).2.1
  have hc1 : managerIsConnected (processPendingRequests t1
      (readyState [⟨i, alwaysFails, t0, 0, 2⟩])) = true := by
    unfold managerIsConnected
    rw [(processPendingRequests_preserves t1 _).1]
    rfl
  have hq2 : (processPendingRequests t2 (processPendingRequests t1
      (readyState [⟨i, alwaysFails, t0, 0, 2⟩]))).pendingRequests =
      [⟨i, alwaysFails, t0, 2, 2⟩] := by
    have h := singleton_fail_pass i t0 1 2 t2 _ hq1 hp1 hc1 h2
    simpa using h
  have hp2 : (processPendingRequests t2 (processPendingRequests t1
      (readyState [⟨i, alwaysFails, t0, 0, 2⟩]))).isProcessingQueue = false :=
    ((processPendingRequests_preserves t2 _).2.1).trans hp1
  have hc2 : managerIsConnected (processPendingRequests t2 (processPendingRequests t1
      (readyState [⟨i, alwaysFails, t0, 0, 2⟩]))) = true := by
    unfold managerIsConnected
    rw [(processPendingRequests_preserves t2 _).1]
    exact hc1
  have hq3 : (processPendingRequests t3 (processPendingRequests t2
      (processPendingRequests t1
        (readyState [⟨i, alwaysFails, t0, 0, 2⟩])))).pendingRequests = [] := by
    have h := singleton_fail_pass i t0 2 2 t3 _ hq2 hp2 hc2 h3
    simpa using h
  exact ⟨hq1, hq2, hq3, fun c m now s hq hp hc hage =>
    singleton_fail_pass i t0 c m now s hq hp hc hage⟩

/-- Witness for C1: concrete always-failing op `"op"` enqueued at time 0,
drained at times 1, 2, 3; gone after the third pass. -/
theorem alwaysFailing_op_three_passes_witness :
    (processPendingRequests 3 (processPendingRequests 2 (processPendingRequests 1
        (readyState [⟨"op", alwaysFails, 0, 0, 2⟩])))).pendingRequests = [] :=
  (alwaysFailing_op_three_passes "op" 0 1 2 3 (by decide) (by decide)
    (by decide)).2.2.1

/-- C3: an operation enqueued at time `T` is removed by a drain pass at
`T + 24h + 1ms` without its `execute` being invoked (the op here always
fails and sits below its retry ceiling, so had `execute` run, the op would
have stayed queued with `retryCount = 1`; the empty result certifies the
stale branch); and on load from storage every restored entry has age at
most 24 hours — older entries are dropped. -/
theorem stale_op_discarded_without_execution (i : String) (T m : Nat) :
    ((processPendingRequests (T + MAX_REQUEST_AGE + 1)
        (readyState [⟨i, alwaysFails, T, 0, m + 1⟩])).pendingRequests = []) ∧
    (∀ (now : Nat) (data : List StoredRequest),
      (loadPendingRequests now (initialManagerState (some data))).pendingRequests =
        (data.filter (fun r => now - r.timestamp ≤ MAX_REQUEST_AGE)).map
          restoreRequest ∧
      ∀ r ∈ (loadPendingRequests now (initialManagerState (some data))).pendingRequests,
        now - r.timestamp ≤ MAX_REQUEST_AGE) := by
  constructor
  · have hstale : T + MAX_REQUEST_AGE + 1 - T > MAX_REQUEST_AGE := by omega
    simp [processPendingRequests, readyState, managerIsConnected, statusIsConnected,
      initialNetworkStatus, drainList, drainStep, removeById, hstale,
      savePendingRequests, emitEvent]
  · intro now data
    constructor
    · simp [loadPendingRequests, initialManagerState]
    · intro r hr
      simp only [loadPendingRequests, initialManagerState, List.mem_map,
        List.mem_filter] at hr
      obtain ⟨a, ⟨_, ha⟩, rfl⟩ := hr
      simpa [restoreRequest] using ha

/-- Witness for C3: op `"a"` enqueued at 0 with `maxRetries = 1`, drained at
`24h + 1ms`, is gone; and the restored entry of a freshly loaded store has
age within the ceiling. -/
theorem stale_op_discarded_without_execution_witness :
    ((processPendingRequests (0 + MAX_REQUEST_AGE + 1)
        (readyState [⟨"a", alwaysFails, 0, 0, 0 + 1⟩])).pendingRequests = []) ∧
    ((0:Nat) - (0:Nat) ≤ MAX_REQUEST_AGE) :=
  ⟨(stale_op_discarded_without_execution "a" 0 0).1,
   ((stale_op_discarded_without_execution "a" 0 0).2 0
      [⟨"a", 0, 0, 3⟩]).2 (restoreRequest ⟨"a", 0, 0, 3⟩)
      (by simp [loadPendingRequests, initialManagerState])⟩

theorem processPendingRequests_emit_fresh (now : Nat) (e : EmittedEvent)
    (s : ManagerState) :
    ∃ t : List EmittedEvent,
      (processPendingRequests now (emitEvent e s)).events = s.events ++ e :: t ∧
      t.all (fun x => !isConnectedEvent x && !isDisconnectedEvent x) = true := by
  rcases processPendingRequests_events_shape now (emitEvent e s) with heq | ⟨n, heq⟩
  · exact ⟨[], by simpa [emitEvent] using heq, rfl⟩
  · refine ⟨[.pendingRequestsChanged n], ?_, rfl⟩
    rw [heq]
    simp [emitEvent, isConnectedEvent, isDisconnectedEvent]

/-- C5: the transition handler emits `CONNECTED` exactly on a `false→true`
edge of `isConnected`, `DISCONNECTED` exactly on a `true→false` edge, emits
nothing when the flag does not change, and leaves the queue untouched (no
drain) whenever no `CONNECTED` event is emitted. -/
theorem handleNetworkChange_edge_semantics (now : Nat) (st : NetInfoState)
    (s : ManagerState) :
    (((handleNetworkChange now st s).events.drop s.events.length).any
        isConnectedEvent
      = (!s.networkStatus.isConnected && st.isConnected.getD false)) ∧
    (((handleNetworkChange now st s).events.drop s.events.length).any
        isDisconnectedEvent
      = (s.networkStatus.isConnected && !(st.isConnected.getD false))) ∧
    (((handleNetworkChange now st s).events.drop s.events.length).isEmpty
      = (s.networkStatus.isConnected == st.isConnected.getD false)) ∧
    (((handleNetworkChange now st s).events.drop s.events.length).any
        isConnectedEvent = false →
      (handleNetworkChange now st s).pendingRequests = s.pendingRequests) := by
  by_cases h : s.networkStatus.isConnected = st.isConnected.getD false
  · refine ⟨?_, ?_, ?_, fun _ => ?_⟩ <;>
      simp [handleNetworkChange, h, List.drop_length]
  · cases hb : st.isConnected.getD false with
    | false =>
        have hp : s.networkStatus.isConnected = true := by
          revert h
          rw [hb]
          cases s.networkStatus.isConnected <;> simp
        refine ⟨?_, ?_, ?_, fun _ => ?_⟩ <;>
          simp [handleNetworkChange, hb, hp, emitEvent, isConnectedEvent,
            isDisconnectedEvent]
    | true =>
        have hp : s.networkStatus.isConnected = false := by
          revert h
          rw [hb]
          cases s.networkStatus.isConnected <;> simp
        obtain ⟨t, ht1, ht2⟩ := processPendingRequests_emit_fresh now
          (.connected true st.isInternetReachable)
          { s with networkStatus :=
              ⟨true, st.isInternetReachable, st.type, st.details⟩ }
        have hmain : (handleNetworkChange now st s).events =
            s.events ++ EmittedEvent.connected true st.isInternetReachable :: t := by
          simpa [handleNetworkChange, hb, hp] using ht1
        refine ⟨?_, ?_, ?_, fun habs => ?_⟩
        · rw [hmain]
          simp [isConnectedEvent, hp]
        · rw [hmain]
          simp only [List.drop_left, List.any_cons]
          simp only [List.all_eq_true, Bool.and_eq_true, Bool.not_eq_true'] at ht2
          simp [isDisconnectedEvent, List.any_eq_false]
          intro x hx
          exact (ht2 x hx).2
        · rw [hmain]
          simp [hp]
        · rw [hmain] at habs
          simp [isConnectedEvent] at habs

/-- Witness for C5: a repeated "connected" notification (no edge) emits
nothing and leaves the queue untouched. -/
theorem handleNetworkChange_edge_semantics_witness :
    (handleNetworkChange 0 ⟨some true, some true, "wifi", none⟩
        (readyState [])).pendingRequests = (readyState []).pendingRequests := by
  have h := handleNetworkChange_edge_semantics 0
    ⟨some true, some true, "wifi", none⟩ (readyState [])
  exact h.2.2.2 (h.1.trans (by decide))

/-- C10: when the one-shot platform fetch during initialization reports a
connected device, the in-memory default status (already connected) makes the
fetch a non-edge: initialization emits no `CONNECTED` event and triggers no
drain — the in-memory queue afterwards is exactly the entries restored from
storage, untouched. -/
theorem initializeManager_no_drain_when_already_connected (now : Nat)
    (f : NetInfoState) (stored : List StoredRequest)
    (h : f.isConnected = some true) :
    ((initializeManager now f (initialManagerState (some stored))).events.any
        isConnectedEvent = false) ∧
    (initializeManager now f (initialManagerState (some stored))).pendingRequests =
      (stored.filter (fun r => now - r.timestamp ≤ MAX_REQUEST_AGE)).map
        restoreRequest := by
  constructor <;>
    simp [initializeManager, initialManagerState, loadPendingRequests,
      handleNetworkChange, h, initialNetworkStatus, isConnectedEvent]

/-- Witness for C10: a concrete store of one fresh entry, fetch reporting
connected: no `CONNECTED` event fires during initialization. -/
theorem initializeManager_no_drain_when_already_connected_witness :
    ((initializeManager 5 ⟨some true, some true, "wifi", none⟩
        (initialManagerState (some [⟨"op1", 0, 0, 3⟩]))).events.any
        isConnectedEvent = false) :=
  (initializeManager_no_drain_when_already_connected 5
    ⟨some true, some true, "wifi", none⟩ [⟨"op1", 0, 0, 3⟩] rfl).1

/-- Counterexample to C2 as stated: enqueuing id `"a"` twice while offline
leaves two queue entries with id `"a"` — `enqueueRequest` never checks for
an existing id, so the per-id uniqueness invariant fails. -/
theorem enqueue_duplicate_id_counterexample :
    ((enqueueRequest 1 "a" placeholderExecute 3
        (enqueueRequest 0 "a" placeholderExecute 3
          (offlineState []))).pendingRequests.map PendingRequest.id) = ["a", "a"] ∧
    ¬ ((enqueueRequest 1 "a" placeholderExecute 3
        (enqueueRequest 0 "a" placeholderExecute 3
          (offlineState []))).pendingRequests.map PendingRequest.id).Nodup := by
  constructor
  · rfl
  · intro hnd
    rw [show ((enqueueRequest 1 "a" placeholderExecute 3
        (enqueueRequest 0 "a" placeholderExecute 3
          (offlineState []))).pendingRequests.map PendingRequest.id) = ["a", "a"]
      from rfl] at hnd
    simp at hnd

theorem bumpFirst_timestamps (i : String) (l : List PendingRequest) :
    queueTimestamps (bumpFirst i l) = queueTimestamps l := by
  induction l with
  | nil => rfl
  | cons r rs ih =>
      unfold bumpFirst
      split
      · simp [queueTimestamps]
      · simp only [queueTimestamps, List.map_cons] at ih ⊢
        rw [ih]

theorem drainStep_timestamps_sublist (now : Nat) (live : List PendingRequest)
    (q : PendingRequest) :
    (queueTimestamps (drainStep now live q)).Sublist (queueTimestamps live) := by
  unfold drainStep
  split
  · exact (List.filter_sublist live).map _
  split
  · exact (List.filter_sublist live).map _
  · split
    · exact List.Sublist.refl _
    · split
      · rw [show queueTimestamps live = queueTimestamps (bumpFirst q.id live) from
          (bumpFirst_timestamps q.id live).symm]
        exact (List.filter_sublist _).map _
      · rw [bumpFirst_timestamps]

theorem drainList_timestamps_sublist (now : Nat) (snapshot live : List PendingRequest) :
    (queueTimestamps (drainList now live snapshot)).Sublist (queueTimestamps live) := by
  induction snapshot generalizing live with
  | nil => exact List.Sublist.refl _
  | cons q rest ih =>
      exact (ih (drainStep now live q)).trans (drainStep_timestamps_sublist now live q)

theorem processPendingRequests_timestamps_sublist (now : Nat) (s : ManagerState) :
    (queueTimestamps (processPendingRequests now s).pendingRequests).Sublist
      (queueTimestamps s.pendingRequests) := by
  unfold processPendingRequests
  split
  · exact List.Sublist.refl _
  · simp only [emitEvent, savePendingRequests]
    exact drainList_timestamps_sublist now s.pendingRequests s.pendingRequests

/-- C2 amended: the queue stays ordered by enqueue time (timestamps are
nondecreasing, assuming the clock does not run backwards), but per-id
uniqueness is not maintained: `enqueueRequest` unconditionally appends a new
entry — also when the id is already queued. -/
theorem queue_ordering_no_dedup (now : Nat) (i : String) (ex : Nat → Bool)
    (m : Nat) (s : ManagerState)
    (hsort : (queueTimestamps s.pendingRequests).Pairwise (· ≤ ·))
    (hnow : ∀ r ∈ s.pendingRequests, r.timestamp ≤ now) :
    ((queueTimestamps (enqueueRequest now i ex m s).pendingRequests).Pairwise
        (· ≤ ·)) ∧
    ((queueTimestamps (processPendingRequests now s).pendingRequests).Pairwise
        (· ≤ ·)) ∧
    (managerIsConnected s = false →
      (enqueueRequest now i ex m s).pendingRequests =
        s.pendingRequests ++ [⟨i, ex, now, 0, m⟩]) := by
  have happ : (queueTimestamps
      (s.pendingRequests ++ [⟨i, ex, now, 0, m⟩])).Pairwise (· ≤ ·) := by
    simp only [queueTimestamps, List.map_append, List.map_cons, List.map_nil]
    rw [List.pairwise_append]
    refine ⟨hsort, List.pairwise_singleton _ _, ?_⟩
    intro a ha b hb
    simp only [List.mem_singleton] at hb
    subst hb
    simp only [List.mem_map] at ha
    obtain ⟨r, hr, rfl⟩ := ha
    exact hnow r hr
  refine ⟨?_, hsort.sublist (processPendingRequests_timestamps_sublist now s),
    fun hoff => ?_⟩
  · unfold enqueueRequest
    dsimp only
    split
    · exact happ.sublist (processPendingRequests_timestamps_sublist now _)
    · exact happ
  · have hoff' : statusIsConnected s.networkStatus = false := hoff
    simp [enqueueRequest, emitEvent, savePendingRequests, managerIsConnected, hoff']

/-- Witness for the amended C2: appending id `"b"` to an offline queue that
already holds id `"a"` (enqueued earlier) just appends. -/
theorem queue_ordering_no_dedup_witness :
    (enqueueRequest 1 "b" placeholderExecute 3
        (offlineState [⟨"a", placeholderExecute, 0, 0, 3⟩])).pendingRequests =
      (offlineState [⟨"a", placeholderExecute, 0, 0, 3⟩]).pendingRequests ++
        [⟨"b", placeholderExecute, 1, 0, 3⟩] :=
  (queue_ordering_no_dedup 1 "b" placeholderExecute 3
      (offlineState [⟨"a", placeholderExecute, 0, 0, 3⟩])
      (by simp [queueTimestamps, offlineState])
      (by intro r hr; simp [offlineState] at hr; rw [hr]; decide)).2.2 rfl

/-- Witness for C4: saving a queue holding the always-failing op `"w"` and
reloading it after a restart yields an entry whose action is the do-nothing
placeholder. -/
theorem persisted_queue_loses_actions_witness :
    (restoreRequest ⟨"w", 0, 0, 3⟩).execute = placeholderExecute :=
  (persisted_queue_loses_actions (readyState [⟨"w", alwaysFails, 0, 0, 3⟩]) 0).2
    (restoreRequest ⟨"w", 0, 0, 3⟩)
    (by simp [savePendingRequests, readyState, serializeRequest,
      loadPendingRequests, initialManagerState])
